import Mathlib

/-!
Verification of the WorkerSQL Python SDK's connection pool and retry logic
(`workersql_client/connection_pool.py`, `workersql_client/retry_logic.py`).

The Python code is shallowly embedded: Python `float` durations/timestamps
become `ℚ`, `datetime` values become a wrapper around an epoch expressed in
seconds, the insertion-ordered `dict` of pooled connections becomes a list of
records (dict keys are unique, so theorems that need it take a `Nodup`
hypothesis on the ids), exceptions become an error type returned through
`Except`, and the nondeterministic inputs (`random.random()`, generated
connection ids, clock readings) become explicit parameters.
-/

namespace WorkerSQL

/-! ## Python string helpers

Python's `str.lower()` on the ASCII strings involved here, and the substring
test `needle in haystack`. -/

/-- ASCII lower-casing of one character, as `str.lower` does on ASCII. -/
def lowChar (c : Char) : Char :=
  if 'A' ≤ c ∧ c ≤ 'Z' then Char.ofNat (c.toNat + 32) else c

/-- `s.lower()` on an ASCII string. -/
def lowStr (s : String) : String := String.mk (s.data.map lowChar)

/-- Python's `needle in haystack` substring membership test. -/
def strContains (haystack needle : String) : Bool :=
  decide (needle.data <:+: haystack.data)

/-! ## Errors

`ValidationError(code, message, details)` from `workersql_client.py` stores the
message via `super().__init__(message)` (so `str(e)` is the message), the code,
and an optional details dict.  The retry logic only ever builds a details dict
of shape `{"original_error": str(error), "attempts": n}`. -/

/-- The details dict `{"original_error": ..., "attempts": ...}` attached by
`RetryStrategy.execute` to its terminal error. -/
structure RetryDetails where
  original_error : String
  attempts : ℤ
deriving DecidableEq, Repr

/-- A Python exception as seen by the retry logic: either a structured
`ValidationError` or any other exception, of which only `str(error)` is
observed. -/
inductive PyError where
  | validation (code : String) (message : String) (details : Option RetryDetails)
  | generic (message : String)
deriving DecidableEq, Repr

/-- `str(error)`: for `ValidationError` the message passed to `Exception`,
for a generic exception its message. -/
def PyError.str : PyError → String
  | .validation _ message _ => message
  | .generic message => message

/-! ## RetryStrategy (`retry_logic.py`) -/

/-- `DEFAULT_RETRYABLE_ERRORS` from `retry_logic.py`. -/
def DEFAULT_RETRYABLE_ERRORS : List String :=
  ["CONNECTION_ERROR", "TIMEOUT_ERROR", "RESOURCE_LIMIT"]

/-- The configuration fields of `RetryStrategy`. -/
structure RetryStrategy where
  max_attempts : ℤ
  initial_delay : ℚ
  max_delay : ℚ
  backoff_multiplier : ℚ
  retryable_errors : List String
deriving DecidableEq, Repr

/-- `RetryStrategy.__init__`: stores the parameters and applies
`retryable_errors or DEFAULT_RETRYABLE_ERRORS` (Python `or`, so `None` and the
empty list both fall back to the default). -/
def mkRetryStrategy (max_attempts : ℤ) (initial_delay max_delay backoff_multiplier : ℚ)
    (retryable_errors : Option (List String)) : RetryStrategy :=
  { max_attempts := max_attempts
    initial_delay := initial_delay
    max_delay := max_delay
    backoff_multiplier := backoff_multiplier
    retryable_errors :=
      match retryable_errors with
      | some l => if l.isEmpty then DEFAULT_RETRYABLE_ERRORS else l
      | none => DEFAULT_RETRYABLE_ERRORS }

/-- The fixed substring list checked by `is_retryable` for unstructured
errors. -/
def NETWORK_ERROR_SUBSTRINGS : List String :=
  ["connection", "timeout", "refused", "reset", "unreachable"]

/-- `RetryStrategy.is_retryable`: a `ValidationError` is retryable iff its code
is in `retryable_errors`; any other exception is retryable iff its lower-cased
message contains one of the network-error substrings. -/
def RetryStrategy.is_retryable (s : RetryStrategy) (error : PyError) : Bool :=
  match error with
  | .validation code _ _ => s.retryable_errors.contains code
  | .generic _ =>
    let error_msg := lowStr error.str
    NETWORK_ERROR_SUBSTRINGS.any (fun err => strContains error_msg err)

/-- `RetryStrategy.calculate_delay`:
`min(initial_delay * backoff_multiplier ** attempt, max_delay)`. -/
def RetryStrategy.calculate_delay (s : RetryStrategy) (attempt : ℕ) : ℚ :=
  min (s.initial_delay * s.backoff_multiplier ^ attempt) s.max_delay

/-- `RetryStrategy.add_jitter`: `delay + random.random() * 0.3 * delay`;
`rand` is the value drawn from `random.random()`, which lies in `[0, 1)`. -/
def RetryStrategy.add_jitter (_s : RetryStrategy) (delay rand : ℚ) : ℚ :=
  delay + rand * 0.3 * delay

/-- The `" ({context})"` fragment interpolated into retry messages when a
context label is supplied, and `""` otherwise. -/
def contextStr : Option String → String
  | some c => " (" ++ c ++ ")"
  | none => ""

/-- The body of `RetryStrategy.execute` from loop index `attempt` onward.
`fn j` is the outcome of the `j`-th invocation of the wrapped operation
(0-indexed).  Returns the final outcome together with how many times `fn` was
invoked from this point on.  The `else` branch is the code after the `for`
loop: `last_error` is `None` exactly when the loop ran zero iterations, so
that code raises `ValidationError("INTERNAL_ERROR", "Unexpected retry
failure")`. -/
def executeFrom {α : Type} (s : RetryStrategy) (fn : ℕ → Except PyError α)
    (context : Option String) (attempt : ℕ) : Except PyError α × ℕ :=
  if _h : (attempt : ℤ) < s.max_attempts then
    match fn attempt with
    | .ok v => (.ok v, 1)
    | .error e =>
      if s.is_retryable e = false then
        (.error e, 1)
      else if (attempt : ℤ) = s.max_attempts - 1 then
        (.error (.validation "CONNECTION_ERROR"
          ("Failed after " ++ toString s.max_attempts ++ " attempts" ++ contextStr context)
          (some ⟨e.str, (attempt : ℤ) + 1⟩)), 1)
      else
        let r := executeFrom s fn context (attempt + 1)
        (r.1, r.2 + 1)
  else
    (.error (.validation "INTERNAL_ERROR" "Unexpected retry failure" none), 0)
termination_by (s.max_attempts - (attempt : ℤ)).toNat
decreasing_by omega

/-- `RetryStrategy.execute fn context`: the outcome and the number of
invocations of `fn`. -/
def RetryStrategy.execute {α : Type} (s : RetryStrategy) (fn : ℕ → Except PyError α)
    (context : Option String) : Except PyError α × ℕ :=
  executeFrom s fn context 0

/-! ## ConnectionPool (`connection_pool.py`)

A `datetime.datetime` is kept distinct from a Python `float` (as it is in
Python): the two support subtraction only among themselves. -/

/-- A `datetime.datetime` value, as an epoch offset in seconds. -/
structure DateTime where
  epoch : ℚ
deriving DecidableEq, Repr

/-- `(a - b).total_seconds()` for two datetimes. -/
def DateTime.subSeconds (a b : DateTime) : ℚ := a.epoch - b.epoch

/-- `PooledConnection` (the `requests.Session` handle is an opaque external
resource and carries no state the pool logic reads, so it is omitted). -/
structure PooledConnection where
  id : String
  in_use : Bool
  created_at : DateTime
  last_used : DateTime
  use_count : ℕ
deriving DecidableEq, Repr

/-- The state of a `ConnectionPool`: its configuration, the insertion-ordered
dict of connections (modelled as a list; dict keys are unique), and the
`closed` flag. -/
structure ConnectionPool where
  min_connections : ℕ
  max_connections : ℕ
  idle_timeout : ℚ
  connection_timeout : ℚ
  connections : List PooledConnection
  closed : Bool
deriving DecidableEq, Repr

/-- Python dict assignment `self.connections[conn.id] = conn`: replaces in
place if the key is present, appends otherwise. -/
def dictInsert (l : List PooledConnection) (c : PooledConnection) : List PooledConnection :=
  if l.any (fun d => d.id = c.id) then
    l.map (fun d => if d.id = c.id then c else d)
  else
    l ++ [c]

/-- The scan `for conn in self.connections.values(): if not conn.in_use: ...`
inside `acquire`: marks the first idle connection in iteration order as leased
(`in_use := true`, stamps `last_used`, increments `use_count`) and returns it
with the updated list, or `none` when every connection is in use. -/
def acquireScan (now : DateTime) :
    List PooledConnection → Option (PooledConnection × List PooledConnection)
  | [] => none
  | c :: rest =>
    if c.in_use then
      match acquireScan now rest with
      | some (r, rest') => some (r, c :: rest')
      | none => none
    else
      let c' := { c with in_use := true, last_used := now, use_count := c.use_count + 1 }
      some (c', c' :: rest)

/-- One execution of the locked body of `acquire`'s polling loop. `now` is the
`datetime.now()` reading and `newId` the id `_create_connection` would
generate at this moment.  Either leases the first idle connection, or (when
`len(connections) < max_connections`) creates a fresh connection via
`_create_connection` — `in_use = False`, `use_count = 0`, inserted into the
dict — and immediately leases it, or returns `none`, upon which the Python
loop falls through to the timeout check and the `time.sleep(0.1)`. -/
def acquireAttempt (p : ConnectionPool) (now : DateTime) (newId : String) :
    Option (PooledConnection × ConnectionPool) :=
  match acquireScan now p.connections with
  | some (c, l) => some (c, { p with connections := l })
  | none =>
    if p.connections.length < p.max_connections then
      let created : PooledConnection :=
        { id := newId, in_use := false, created_at := now, last_used := now, use_count := 0 }
      let leased := { created with in_use := true, last_used := now, use_count := 1 }
      some (leased, { p with connections := dictInsert p.connections leased })
    else
      none

/-- The clock readings and generated id observed by one iteration of
`acquire`'s polling loop: `attempt_time` is the `datetime.now()` inside the
locked body, `check_time` the `time.time()` at the subsequent timeout check,
and `fresh_id` the id `_create_connection` would produce. -/
structure PollStep where
  attempt_time : ℚ
  check_time : ℚ
  fresh_id : String
deriving DecidableEq, Repr

/-- `acquire`'s polling loop in the absence of interleaved operations from
other threads (the pool state seen by successive iterations is then the same).
`start` is the `time.time()` taken before the loop.  `none` means the supplied
trace of iterations ended with the loop still polling. -/
def acquireLoop (p : ConnectionPool) (start : ℚ) :
    List PollStep → Option (Except PyError (PooledConnection × ConnectionPool))
  | [] => none
  | step :: rest =>
    match acquireAttempt p ⟨step.attempt_time⟩ step.fresh_id with
    | some r => some (.ok r)
    | none =>
      if p.connection_timeout < step.check_time - start then
        some (.error (.validation "TIMEOUT_ERROR" "Timeout waiting for connection" none))
      else
        acquireLoop p start rest

/-- `ConnectionPool.acquire`: fails at once when the pool is closed, otherwise
runs the polling loop. -/
def ConnectionPool.acquire (p : ConnectionPool) (start : ℚ) (polls : List PollStep) :
    Option (Except PyError (PooledConnection × ConnectionPool)) :=
  if p.closed then
    some (.error (.validation "CONNECTION_ERROR" "Connection pool is closed" none))
  else
    acquireLoop p start polls

/-- `ConnectionPool.release`: when the id is a key of the dict, clears that
entry's `in_use` and stamps its `last_used`, silently doing nothing otherwise.
(The map touches exactly the one entry with that key, dict keys being
unique.) -/
def ConnectionPool.release (p : ConnectionPool) (connection_id : String) (now : DateTime) :
    ConnectionPool :=
  { p with connections := p.connections.map (fun c =>
      if c.id = connection_id then { c with in_use := false, last_used := now } else c) }

/-- The first loop of `_perform_health_check`: the ids collected into
`connections_to_remove`.  The length test `len(self.connections) >
self.min_connections` is evaluated while the dict is still unmodified (the
removals happen only in the second loop), so it reads the pre-sweep size for
every candidate. -/
def connectionsToRemove (p : ConnectionPool) (now : DateTime) : List String :=
  (p.connections.filter (fun c =>
    !c.in_use && decide (p.idle_timeout < now.subSeconds c.last_used)
      && decide (p.min_connections < p.connections.length))).map (fun c => c.id)

/-- `ConnectionPool._perform_health_check`: pops every collected id from the
dict (and closes its session, an external effect not modelled). -/
def performHealthCheck (p : ConnectionPool) (now : DateTime) : ConnectionPool :=
  { p with connections :=
      p.connections.filter (fun c => !(connectionsToRemove p now).contains c.id) }

/-! ## Sequences of pool operations

For statements over arbitrary interleavings of `acquire` and `release`. -/

/-- One client-visible pool operation: a successful-or-failed pass of
`acquire`'s locked body (its `datetime.now()` reading and generated id made
explicit), or a `release`. -/
inductive PoolOp where
  | acquireOp (now : DateTime) (fresh_id : String)
  | releaseOp (connection_id : String) (now : DateTime)
deriving DecidableEq, Repr

/-- The pool state after one operation (an `acquire` pass that found neither
an idle connection nor room to create one leaves the state unchanged). -/
def applyOp (p : ConnectionPool) : PoolOp → ConnectionPool
  | .acquireOp now fid =>
    match acquireAttempt p now fid with
    | some r => r.2
    | none => p
  | .releaseOp cid now => p.release cid now

/-- The pool state after a sequence of operations. -/
def applyOps (p : ConnectionPool) (ops : List PoolOp) : ConnectionPool :=
  ops.foldl applyOp p

/-- The `use_count` of the entry with the given id in a connection list, when
present. -/
def listUseCount (l : List PooledConnection) (cid : String) : Option ℕ :=
  (l.find? (fun c => c.id = cid)).map (fun c => c.use_count)

/-- The `use_count` of the dict entry with the given id, when present. -/
def useCountOf (p : ConnectionPool) (cid : String) : Option ℕ :=
  listUseCount p.connections cid

/-- The id an `acquire` pass would hand to `_create_connection` does not
collide with a key already in the dict (`_create_connection`'s ids carry the
creation timestamp and a random component for this purpose). -/
def opFresh (p : ConnectionPool) : PoolOp → Prop
  | .acquireOp _ fid => ∀ c ∈ p.connections, c.id ≠ fid
  | .releaseOp _ _ => True

/-- `opFresh` holding at each step of a sequence, against the state the step
actually sees. -/
def opsFresh (p : ConnectionPool) : List PoolOp → Prop
  | [] => True
  | op :: rest => opFresh p op ∧ opsFresh (applyOp p op) rest

/-! ## `get_detailed_stats` -/

/-- A runtime error raised by the Python interpreter itself. -/
inductive PyRuntimeError where
  | typeErr (message : String)
deriving DecidableEq, Repr

/-- Python `float.__sub__`/`datetime.__rsub__` define no subtraction of a
`datetime` from a `float`, so `now - c.created_at` with `now = time.time()`
raises `TypeError` whatever the operands' values. -/
def floatSubDatetime (_x : ℚ) (_d : DateTime) : Except PyRuntimeError ℚ :=
  .error (.typeErr "unsupported operand type(s) for -: float and datetime.datetime")

/-- One per-connection entry of `get_detailed_stats`' `"connections"` list. -/
structure ConnStat where
  id : String
  in_use : Bool
  created_at : DateTime
  last_used : DateTime
  use_count : ℕ
  age_seconds : ℚ
  idle_seconds : ℚ
deriving DecidableEq, Repr

/-- The dict returned by `get_detailed_stats`. -/
structure DetailedStats where
  total : ℕ
  active : ℕ
  idle : ℕ
  min_connections : ℕ
  max_connections : ℕ
  total_requests : ℕ
  average_use_count : ℚ
  oldest_connection : Option DateTime
  newest_connection : Option DateTime
  connections : List ConnStat
deriving DecidableEq, Repr

/-- The earliest of a list of datetimes (`min(gen, default=None)`). -/
def dtListMin : List DateTime → Option DateTime
  | [] => none
  | d :: rest =>
    match dtListMin rest with
    | none => some d
    | some m => some (if d.epoch ≤ m.epoch then d else m)

/-- The latest of a list of datetimes (`max(gen, default=None)`). -/
def dtListMax : List DateTime → Option DateTime
  | [] => none
  | d :: rest =>
    match dtListMax rest with
    | none => some d
    | some m => some (if m.epoch ≤ d.epoch then d else m)

/-- `ConnectionPool.get_detailed_stats`.  `now` is the `time.time()` float it
takes under the lock.  The per-connection `age_seconds`/`idle_seconds`
expressions subtract a `datetime` from that float, which raises `TypeError` as
soon as one connection exists, so the whole call is `Except`-valued.  (The
method as written cannot even be reached: its `Dict[str, Any]` return
annotation names `Any`, which `connection_pool.py` never imports, so importing
the module raises `NameError`; the body is modelled as it stands.) -/
def getDetailedStats (p : ConnectionPool) (now : ℚ) : Except PyRuntimeError DetailedStats := do
  let l := p.connections
  let active := (l.filter (fun c => c.in_use)).length
  let total_requests : ℕ := (l.map (fun c => c.use_count)).sum
  let average_use_count : ℚ := if l.isEmpty then 0 else (total_requests : ℚ) / (l.length : ℚ)
  let oldest_connection := dtListMin (l.map (fun c => c.created_at))
  let newest_connection := dtListMax (l.map (fun c => c.created_at))
  let conn_stats ← l.mapM (fun c => do
    let age ← floatSubDatetime now c.created_at
    let idle ← floatSubDatetime now c.last_used
    pure (⟨c.id, c.in_use, c.created_at, c.last_used, c.use_count, age, idle⟩ : ConnStat))
  pure
    { total := l.length
      active := active
      idle := l.length - active
      min_connections := p.min_connections
      max_connections := p.max_connections
      total_requests := total_requests
      average_use_count := average_use_count
      oldest_connection := oldest_connection
      newest_connection := newest_connection
      connections := conn_stats }

/-! ## Concrete instances

Named inputs used by counterexamples and witnesses below. -/

/-- The spec's example operation: fails twice with a retryable (network-worded)
error, then succeeds with value 7. -/
def fnW : ℕ → Except PyError ℕ :=
  fun j => if j < 2 then .error (.generic "connection lost") else .ok 7

/-- A pool at `min_connections = 2` holding three connections, all idle since
epoch 0, with `idle_timeout = 0.5`. -/
def healthPool : ConnectionPool :=
  ⟨2, 10, 1/2, 30,
   [⟨"c1", false, ⟨0⟩, ⟨0⟩, 1⟩, ⟨"c2", false, ⟨0⟩, ⟨0⟩, 2⟩, ⟨"c3", false, ⟨0⟩, ⟨0⟩, 3⟩],
   false⟩

/-- A pool holding an idle connection `"a"` and a leased connection `"b"`. -/
def twoConnPool : ConnectionPool :=
  ⟨1, 10, 300, 30, [⟨"a", false, ⟨0⟩, ⟨0⟩, 0⟩, ⟨"b", true, ⟨0⟩, ⟨0⟩, 1⟩], false⟩

/-- A closed pool. -/
def closedPool : ConnectionPool :=
  ⟨1, 1, 300, 30, [⟨"a", true, ⟨0⟩, ⟨0⟩, 1⟩], true⟩

/-- An open pool at `max_connections = 1` whose single connection is leased. -/
def busyPool : ConnectionPool :=
  ⟨1, 1, 300, 30, [⟨"a", true, ⟨0⟩, ⟨0⟩, 1⟩], false⟩

/-- An open pool with one idle connection. -/
def oneConnPool : ConnectionPool :=
  ⟨1, 10, 300, 30, [⟨"a", false, ⟨0⟩, ⟨5⟩, 4⟩], false⟩

/-! ## Theorems -/

/-- Claim C4: `calculate_delay attempt` equals
`min(initial_delay * backoff_multiplier ^ attempt, max_delay)` for every
attempt, and with `initial_delay = 1.0`, `backoff_multiplier = 2.0`,
`max_delay = 5.0` the delays for attempts 0..4 are exactly
`1.0, 2.0, 4.0, 5.0, 5.0`. -/
theorem calculate_delay_formula_and_values (s : RetryStrategy) (attempt : ℕ) :
    s.calculate_delay attempt
      = min (s.initial_delay * s.backoff_multiplier ^ attempt) s.max_delay ∧
    (mkRetryStrategy 3 1 5 2 none).calculate_delay 0 = 1 ∧
    (mkRetryStrategy 3 1 5 2 none).calculate_delay 1 = 2 ∧
    (mkRetryStrategy 3 1 5 2 none).calculate_delay 2 = 4 ∧
    (mkRetryStrategy 3 1 5 2 none).calculate_delay 3 = 5 ∧
    (mkRetryStrategy 3 1 5 2 none).calculate_delay 4 = 5 := by
  refine ⟨rfl, ?_, ?_, ?_, ?_, ?_⟩ <;>
    norm_num [RetryStrategy.calculate_delay, mkRetryStrategy]

/-- Claim C8: for every positive delay `d` and every value `r` that
`random.random()` can return (`0 ≤ r < 1`), `add_jitter d` lies between `d`
and `1.3 * d`; in particular `add_jitter 1.0` lies in `[1.0, 1.3]`. -/
theorem add_jitter_bounds (s : RetryStrategy) (d r : ℚ)
    (hd : 0 < d) (hr0 : 0 ≤ r) (hr1 : r < 1) :
    d ≤ s.add_jitter d r ∧ s.add_jitter d r ≤ 1.3 * d ∧
    1 ≤ s.add_jitter 1 r ∧ s.add_jitter 1 r ≤ 1.3 := by
  unfold RetryStrategy.add_jitter
  refine ⟨by nlinarith, by nlinarith, by nlinarith, by nlinarith⟩

/-- Concrete instance of `add_jitter_bounds` at `d = 2`, `r = 1/2`. -/
theorem add_jitter_bounds_witness :
    2 ≤ (mkRetryStrategy 3 1 30 2 none).add_jitter 2 (1/2) ∧
    (mkRetryStrategy 3 1 30 2 none).add_jitter 2 (1/2) ≤ 1.3 * 2 ∧
    1 ≤ (mkRetryStrategy 3 1 30 2 none).add_jitter 1 (1/2) ∧
    (mkRetryStrategy 3 1 30 2 none).add_jitter 1 (1/2) ≤ 1.3 :=
  add_jitter_bounds (mkRetryStrategy 3 1 30 2 none) 2 (1/2)
    (by norm_num) (by norm_num) (by norm_num)

/-- Claim C10: with `max_attempts ≤ 0`, `execute` runs zero loop iterations,
never invokes the operation, and raises
`ValidationError("INTERNAL_ERROR", "Unexpected retry failure")`. -/
theorem execute_nonpositive_max_attempts {α : Type} (s : RetryStrategy)
    (fn : ℕ → Except PyError α) (context : Option String)
    (h : s.max_attempts ≤ 0) :
    s.execute fn context
      = (.error (.validation "INTERNAL_ERROR" "Unexpected retry failure" none), 0) := by
  have h0 : ¬ (((0 : ℕ) : ℤ) < s.max_attempts) := by push_cast; omega
  unfold RetryStrategy.execute
  rw [executeFrom, dif_neg h0]

/-- Concrete instance of `execute_nonpositive_max_attempts` at
`max_attempts = 0`. -/
theorem execute_nonpositive_max_attempts_witness :
    (mkRetryStrategy 0 1 30 2 none).execute (fun _ => (.ok 1 : Except PyError ℕ)) none
      = (.error (.validation "INTERNAL_ERROR" "Unexpected retry failure" none), 0) :=
  execute_nonpositive_max_attempts (mkRetryStrategy 0 1 30 2 none)
    (fun _ => .ok 1) none (by decide)

/-- Claim C6: a `ValidationError` is retryable exactly when its code belongs
to the configured `retryable_errors` (default
`["CONNECTION_ERROR", "TIMEOUT_ERROR", "RESOURCE_LIMIT"]`); any other error is
retryable exactly when its lower-cased message contains one of
`"connection"`, `"timeout"`, `"refused"`, `"reset"`, `"unreachable"`. -/
theorem is_retryable_spec (s : RetryStrategy) (e : PyError) :
    (∀ code msg det, e = .validation code msg det →
       (s.is_retryable e = true ↔ code ∈ s.retryable_errors)) ∧
    (∀ msg, e = .generic msg →
       (s.is_retryable e = true ↔
         ∃ pat ∈ NETWORK_ERROR_SUBSTRINGS, pat.data <:+: (lowStr msg).data)) ∧
    (mkRetryStrategy 3 1 30 2 none).retryable_errors
      = ["CONNECTION_ERROR", "TIMEOUT_ERROR", "RESOURCE_LIMIT"] := by
  refine ⟨?_, ?_, rfl⟩
  · rintro code msg det rfl
    simp [RetryStrategy.is_retryable]
  · rintro msg rfl
    simp [RetryStrategy.is_retryable, strContains, PyError.str, List.any_eq_true]

/-- Concrete instance of `is_retryable_spec` for a structured
`TIMEOUT_ERROR`. -/
theorem is_retryable_spec_witness :
    (mkRetryStrategy 3 1 30 2 none).is_retryable (.validation "TIMEOUT_ERROR" "x" none) = true ↔
      "TIMEOUT_ERROR" ∈ (mkRetryStrategy 3 1 30 2 none).retryable_errors :=
  (is_retryable_spec (mkRetryStrategy 3 1 30 2 none)
    (.validation "TIMEOUT_ERROR" "x" none)).1 "TIMEOUT_ERROR" "x" none rfl

/-- When attempts `a, a+1, ..., a+i-1` fail retryably and attempt `a+i` (still
within budget) succeeds with `v`, the loop from `a` returns `v` after `i + 1`
invocations. -/
theorem executeFrom_ok {α : Type} (s : RetryStrategy) (fn : ℕ → Except PyError α)
    (context : Option String) (v : α) :
    ∀ i a, (((a + i : ℕ) : ℤ) < s.max_attempts) →
      (∀ j, a ≤ j → j < a + i → ∃ e, fn j = .error e ∧ s.is_retryable e = true) →
      fn (a + i) = .ok v →
      executeFrom s fn context a = (.ok v, i + 1) := by
  intro i
  induction i with
  | zero =>
    intro a hlt _ hok
    simp only [Nat.add_zero] at hlt hok
    rw [executeFrom, dif_pos hlt, hok]
  | succ i ih =>
    intro a hlt herr hok
    obtain ⟨e, he, hr⟩ := herr a le_rfl (by omega)
    have ha : ((a : ℕ) : ℤ) < s.max_attempts := by push_cast at hlt ⊢; omega
    have hne : ¬ (((a : ℕ) : ℤ) = s.max_attempts - 1) := by push_cast at hlt ⊢; omega
    have hrec := ih (a + 1) (by push_cast at hlt ⊢; omega)
      (fun j h1 h2 => herr j (by omega) (by omega))
      (by rw [show a + 1 + i = a + (i + 1) by omega]; exact hok)
    rw [executeFrom, dif_pos ha, he]
    simp [hr, hne, hrec]

/-- When attempts `a, ..., a+i-1` fail retryably and attempt `a+i` (within
budget) fails non-retryably with `e`, the loop from `a` re-raises `e` after
`i + 1` invocations, with no further retry. -/
theorem executeFrom_fatal {α : Type} (s : RetryStrategy) (fn : ℕ → Except PyError α)
    (context : Option String) (e : PyError) (hnr : s.is_retryable e = false) :
    ∀ i a, (((a + i : ℕ) : ℤ) < s.max_attempts) →
      (∀ j, a ≤ j → j < a + i → ∃ e', fn j = .error e' ∧ s.is_retryable e' = true) →
      fn (a + i) = .error e →
      executeFrom s fn context a = (.error e, i + 1) := by
  intro i
  induction i with
  | zero =>
    intro a hlt _ hbad
    simp only [Nat.add_zero] at hlt hbad
    rw [executeFrom, dif_pos hlt, hbad]
    simp [hnr]
  | succ i ih =>
    intro a hlt herr hbad
    obtain ⟨e', he', hr'⟩ := herr a le_rfl (by omega)
    have ha : ((a : ℕ) : ℤ) < s.max_attempts := by push_cast at hlt ⊢; omega
    have hne : ¬ (((a : ℕ) : ℤ) = s.max_attempts - 1) := by push_cast at hlt ⊢; omega
    have hrec := ih (a + 1) (by push_cast at hlt ⊢; omega)
      (fun j h1 h2 => herr j (by omega) (by omega))
      (by rw [show a + 1 + i = a + (i + 1) by omega]; exact hbad)
    rw [executeFrom, dif_pos ha, he']
    simp [hr', hne, hrec]

/-- When every attempt within budget fails retryably, the loop from `a` (with
`a` within budget) reaches the final attempt and raises the terminal
`CONNECTION_ERROR` built from the final attempt's error, having invoked the
operation once per remaining attempt. -/
theorem executeFrom_exhaust {α : Type} (s : RetryStrategy) (fn : ℕ → Except PyError α)
    (context : Option String) (elast : PyError)
    (herr : ∀ j, ((j : ℕ) : ℤ) < s.max_attempts →
      ∃ e, fn j = .error e ∧ s.is_retryable e = true)
    (hlast : fn (s.max_attempts - 1).toNat = .error elast) :
    ∀ d a, (((a : ℕ) : ℤ) < s.max_attempts) → ((s.max_attempts - 1 - (a : ℕ)).toNat = d) →
      executeFrom s fn context a =
        (.error (.validation "CONNECTION_ERROR"
           ("Failed after " ++ toString s.max_attempts ++ " attempts" ++ contextStr context)
           (some ⟨elast.str, s.max_attempts⟩)), (s.max_attempts - (a : ℕ)).toNat) := by
  intro d
  induction d with
  | zero =>
    intro a ha hd
    have haeq : ((a : ℕ) : ℤ) = s.max_attempts - 1 := by omega
    have hanat : a = (s.max_attempts - 1).toNat := by omega
    obtain ⟨e, he, hr⟩ := herr a ha
    have hee : e = elast := by
      have he' := he
      rw [hanat, hlast] at he'
      simpa using he'.symm
    subst hee
    have h1 : ((a : ℕ) : ℤ) + 1 = s.max_attempts := by omega
    have h2 : (s.max_attempts - ((a : ℕ) : ℤ)).toNat = 1 := by omega
    rw [executeFrom, dif_pos ha, he]
    simp [hr, haeq, h2]
  | succ d ih =>
    intro a ha hd
    obtain ⟨e, he, hr⟩ := herr a ha
    have hne : ¬ (((a : ℕ) : ℤ) = s.max_attempts - 1) := by omega
    have hrec := ih (a + 1) (by push_cast; omega) (by push_cast at hd ⊢; omega)
    have hc : (s.max_attempts - (((a : ℕ) : ℤ) + 1)).toNat + 1
        = (s.max_attempts - ((a : ℕ) : ℤ)).toNat := by omega
    rw [executeFrom, dif_pos ha, he]
    simp [hr, hne, hrec]
    omega

/-- Claim C2: `execute` returns the value of the first successful invocation,
invoking the operation at most `max_attempts` times; a non-retryable failure
is re-raised unchanged at once, its invocation being the last; and when all
`max_attempts` invocations fail retryably, the operation is invoked exactly
`max_attempts` times and a `ValidationError` with code `CONNECTION_ERROR` is
raised whose message contains the attempt count and the context label when one
was supplied, and whose details record the final error's message and the
attempt count. -/
theorem execute_retry_contract {α : Type} (s : RetryStrategy) (fn : ℕ → Except PyError α)
    (context : Option String) :
    (∀ i v, ((i : ℕ) : ℤ) < s.max_attempts →
       (∀ j, j < i → ∃ e, fn j = .error e ∧ s.is_retryable e = true) →
       fn i = .ok v →
       s.execute fn context = (.ok v, i + 1) ∧ ((i : ℕ) : ℤ) + 1 ≤ s.max_attempts) ∧
    (∀ i e, ((i : ℕ) : ℤ) < s.max_attempts →
       (∀ j, j < i → ∃ e', fn j = .error e' ∧ s.is_retryable e' = true) →
       fn i = .error e → s.is_retryable e = false →
       s.execute fn context = (.error e, i + 1)) ∧
    (∀ elast, 1 ≤ s.max_attempts →
       (∀ j, ((j : ℕ) : ℤ) < s.max_attempts →
         ∃ e, fn j = .error e ∧ s.is_retryable e = true) →
       fn (s.max_attempts - 1).toNat = .error elast →
       s.execute fn context =
         (.error (.validation "CONNECTION_ERROR"
            ("Failed after " ++ toString s.max_attempts ++ " attempts" ++ contextStr context)
            (some ⟨elast.str, s.max_attempts⟩)), s.max_attempts.toNat) ∧
       (toString s.max_attempts).data <:+:
         ("Failed after " ++ toString s.max_attempts ++ " attempts" ++ contextStr context).data ∧
       ∀ c, context = some c →
         c.data <:+:
           ("Failed after " ++ toString s.max_attempts ++ " attempts"
             ++ contextStr context).data) := by
  refine ⟨?_, ?_, ?_⟩
  · intro i v hlt herr hok
    refine ⟨?_, by omega⟩
    exact executeFrom_ok s fn context v i 0 (by simpa using hlt)
      (fun j h1 h2 => herr j (by omega)) (by simpa using hok)
  · intro i e hlt herr hbad hnr
    exact executeFrom_fatal s fn context e hnr i 0 (by simpa using hlt)
      (fun j h1 h2 => herr j (by omega)) (by simpa using hbad)
  · intro elast hpos herr hlast
    refine ⟨?_, ?_, ?_⟩
    · have := executeFrom_exhaust s fn context elast herr hlast
        (s.max_attempts - 1 - ((0 : ℕ) : ℤ)).toNat 0 (by push_cast; omega) rfl
      simpa using this
    · exact ⟨"Failed after ".data, " attempts".data ++ (contextStr context).data,
        by simp [String.data_append]⟩
    · rintro c rfl
      refine ⟨"Failed after ".data ++ (toString s.max_attempts).data
          ++ " attempts".data ++ " (".data, ")".data, ?_⟩
      simp [contextStr, String.data_append]

/-- Concrete instance of `execute_retry_contract`: an operation failing twice
retryably then succeeding, under `max_attempts = 3`, returns the success value
after exactly 3 invocations. -/
theorem execute_retry_contract_witness :
    (mkRetryStrategy 3 1 30 2 none).execute fnW none = (.ok 7, 3) ∧
      ((2 : ℕ) : ℤ) + 1 ≤ (mkRetryStrategy 3 1 30 2 none).max_attempts :=
  (execute_retry_contract (mkRetryStrategy 3 1 30 2 none) fnW none).1 2 7 (by decide)
    (fun j hj => ⟨.generic "connection lost",
      by interval_cases j <;> exact ⟨rfl, by decide⟩⟩) rfl

/-- When every connection is in use, the acquire scan finds nothing. -/
theorem acquireScan_none_of_all_in_use (now : DateTime) :
    ∀ l : List PooledConnection, (∀ c ∈ l, c.in_use = true) → acquireScan now l = none := by
  intro l
  induction l with
  | nil => intro _; rfl
  | cons c rest ih =>
    intro h
    have hc : c.in_use = true := h c (by simp)
    simp [acquireScan, hc, ih (fun d hd => h d (by simp [hd]))]

/-- The acquire scan leases an existing connection in place: the number of
connections does not change. -/
theorem acquireScan_length (now : DateTime) :
    ∀ (l : List PooledConnection) r l', acquireScan now l = some (r, l') →
      l'.length = l.length := by
  intro l
  induction l with
  | nil => intro r l' h; simp [acquireScan] at h
  | cons c rest ih =>
    intro r l' h
    by_cases hc : c.in_use
    · rw [acquireScan, if_pos hc] at h
      cases hs : acquireScan now rest with
      | none => rw [hs] at h; simp at h
      | some q =>
        rw [hs] at h
        obtain ⟨r0, rest'⟩ := q
        simp at h
        obtain ⟨h1, h2⟩ := h
        subst h2
        simp [ih r0 rest' hs]
    · rw [acquireScan, if_neg hc] at h
      simp at h
      obtain ⟨h1, h2⟩ := h
      subst h2
      simp

/-- Dict assignment grows the dict by at most one entry. -/
theorem dictInsert_length (l : List PooledConnection) (c : PooledConnection) :
    (dictInsert l c).length ≤ l.length + 1 := by
  unfold dictInsert
  split
  · simp
  · simp

/-- Claim C3: `acquire` on a closed pool fails at once with
`CONNECTION_ERROR` ("Connection pool is closed") whatever happens afterwards;
one pass of the locked body never pushes the pool beyond `max_connections`;
and on an open pool where no connection is idle and the pool is at
`max_connections`, once the elapsed wait at a timeout check exceeds
`connection_timeout`, `acquire` fails with `TIMEOUT_ERROR` ("Timeout waiting
for connection"). -/
theorem acquire_contract (p : ConnectionPool) (start : ℚ) :
    (p.closed = true → ∀ polls, p.acquire start polls =
        some (.error (.validation "CONNECTION_ERROR" "Connection pool is closed" none))) ∧
    (p.connections.length ≤ p.max_connections →
      ∀ now newId r, acquireAttempt p now newId = some r →
        r.2.connections.length ≤ p.max_connections) ∧
    (p.closed = false → (∀ c ∈ p.connections, c.in_use = true) →
      p.max_connections ≤ p.connections.length →
      ∀ polls, (∃ step ∈ polls, p.connection_timeout < step.check_time - start) →
        p.acquire start polls =
          some (.error (.validation "TIMEOUT_ERROR" "Timeout waiting for connection" none))) := by
  refine ⟨?_, ?_, ?_⟩
  · intro h polls
    rw [ConnectionPool.acquire, if_pos h]
  · intro hb now newId r hr
    unfold acquireAttempt at hr
    cases hs : acquireScan now p.connections with
    | none =>
      rw [hs] at hr
      by_cases hlt : p.connections.length < p.max_connections
      · rw [if_pos hlt] at hr
        obtain rfl := Option.some.inj hr
        have hd := dictInsert_length p.connections ⟨newId, true, now, now, 1⟩
        show (dictInsert p.connections ⟨newId, true, now, now, 1⟩).length ≤ p.max_connections
        omega
      · rw [if_neg hlt] at hr; simp at hr
    | some q =>
      obtain ⟨c, l⟩ := q
      rw [hs] at hr
      obtain rfl := Option.some.inj hr
      show l.length ≤ p.max_connections
      rw [acquireScan_length now p.connections c l hs]
      exact hb
  · intro hcl hall hge polls
    induction polls with
    | nil => rintro ⟨step, hmem, -⟩; simp at hmem
    | cons step rest ih =>
      rintro ⟨s', hmem, hex⟩
      have hnone : acquireAttempt p ⟨step.attempt_time⟩ step.fresh_id = none := by
        unfold acquireAttempt
        rw [acquireScan_none_of_all_in_use _ _ hall,
          if_neg (show ¬ p.connections.length < p.max_connections by omega)]
      rw [ConnectionPool.acquire, if_neg (by simp [hcl])] at ih ⊢
      rw [acquireLoop, hnone]
      simp only []
      by_cases hstep : p.connection_timeout < step.check_time - start
      · rw [if_pos hstep]
      · rw [if_neg hstep]
        rcases List.mem_cons.mp hmem with h | h
        · exact absurd (h ▸ hex) hstep
        · exact ih ⟨s', h, hex⟩

/-- Concrete instance of `acquire_contract`: acquiring from a closed pool. -/
theorem acquire_contract_witness :
    closedPool.acquire 0 [] =
      some (.error (.validation "CONNECTION_ERROR" "Connection pool is closed" none)) :=
  (acquire_contract closedPool 0).1 rfl []

/-- A connection of a pool with duplicate-free ids is on the health sweep's
removal list exactly when it is idle, has exceeded the idle timeout, and the
pre-sweep pool size exceeds `min_connections`. -/
theorem connectionsToRemove_mem (p : ConnectionPool) (now : DateTime)
    (hnd : (p.connections.map (fun c => c.id)).Nodup)
    (c : PooledConnection) (hc : c ∈ p.connections) :
    ((connectionsToRemove p now).contains c.id = true ↔
      (c.in_use = false ∧ p.idle_timeout < now.subSeconds c.last_used ∧
        p.min_connections < p.connections.length)) := by
  rw [List.elem_iff]
  unfold connectionsToRemove
  simp only [List.mem_map, List.mem_filter]
  constructor
  · rintro ⟨d, ⟨hdmem, hdpred⟩, hdid⟩
    obtain rfl := List.inj_on_of_nodup_map hnd hdmem hc hdid
    simpa [and_assoc] using hdpred
  · intro h
    exact ⟨c, ⟨hc, by simpa [and_assoc] using h⟩, rfl⟩

/-- Claim C7: one health sweep removes only connections that were idle and
beyond the idle timeout at sweep time; every connection that was `in_use`
survives the sweep with all its fields unchanged. -/
theorem health_check_removes_only_expired_idle (p : ConnectionPool) (now : DateTime)
    (hnd : (p.connections.map (fun c => c.id)).Nodup) :
    (∀ c ∈ p.connections, c.in_use = true → c ∈ (performHealthCheck p now).connections) ∧
    (∀ c ∈ p.connections, c ∉ (performHealthCheck p now).connections →
      c.in_use = false ∧ p.idle_timeout < now.subSeconds c.last_used) := by
  constructor
  · intro c hc huse
    have hrem : (connectionsToRemove p now).contains c.id = false := by
      rw [Bool.eq_false_iff]
      intro hcontra
      have := (connectionsToRemove_mem p now hnd c hc).mp hcontra
      rw [huse] at this
      simp at this
    unfold performHealthCheck
    simp only [List.mem_filter]
    exact ⟨hc, by rw [hrem]; rfl⟩
  · intro c hc hnotin
    have hcontains : (connectionsToRemove p now).contains c.id = true := by
      by_contra hne
      apply hnotin
      unfold performHealthCheck
      simp only [List.mem_filter]
      exact ⟨hc, by rw [Bool.eq_false_iff.mpr hne]; rfl⟩
    have := (connectionsToRemove_mem p now hnd c hc).mp hcontains
    exact ⟨this.1, this.2.1⟩

/-- Concrete instance of `health_check_removes_only_expired_idle`: the leased
connection `"b"` of `twoConnPool` survives a sweep unmodified. -/
theorem health_check_removes_only_expired_idle_witness :
    (⟨"b", true, ⟨0⟩, ⟨0⟩, 1⟩ : PooledConnection)
      ∈ (performHealthCheck twoConnPool ⟨1000⟩).connections :=
  (health_check_removes_only_expired_idle twoConnPool ⟨1000⟩ (by decide)).1
    ⟨"b", true, ⟨0⟩, ⟨0⟩, 1⟩ (by decide) rfl

/-- Claim C1 fails on the code: on `healthPool` (`min_connections = 2`, three
connections all idle longer than `idle_timeout = 0.5` at sweep time), the
first loop of `_perform_health_check` compares the still-unmodified dict size
3 against the minimum for each candidate, collects all three, and the sweep
removes all of them, leaving 0 connections — below `min_connections`, where
the claim demands exactly one removal and a total of 2. -/
theorem health_check_drops_below_min :
    healthPool.min_connections = 2 ∧
    healthPool.connections.length = 3 ∧
    healthPool.connections.all (fun c =>
      !c.in_use && decide (healthPool.idle_timeout
        < DateTime.subSeconds ⟨1⟩ c.last_used)) = true ∧
    (performHealthCheck healthPool ⟨1⟩).connections.length = 0 := by
  refine ⟨rfl, rfl, ?_, ?_⟩
  · norm_num [healthPool, DateTime.subSeconds]
  · norm_num [performHealthCheck, connectionsToRemove, healthPool, DateTime.subSeconds]

/-- The acquire scan changes no id and no `use_count` except for incrementing
the leased connection's `use_count`: per id, `use_count` does not decrease. -/
theorem acquireScan_useCount_mono (now : DateTime) :
    ∀ (l : List PooledConnection) r l', acquireScan now l = some (r, l') →
      ∀ cid n, listUseCount l cid = some n →
        ∃ m, listUseCount l' cid = some m ∧ n ≤ m := by
  intro l
  induction l with
  | nil => intro r l' h; simp [acquireScan] at h
  | cons c rest ih =>
    intro r l' h cid n hn
    by_cases hc : c.in_use
    · rw [acquireScan, if_pos hc] at h
      cases hs : acquireScan now rest with
      | none => rw [hs] at h; simp at h
      | some q =>
        obtain ⟨r0, rest'⟩ := q
        rw [hs] at h
        simp at h
        obtain ⟨h1, h2⟩ := h
        subst h2
        by_cases hid : c.id = cid
        · unfold listUseCount at hn ⊢
          rw [List.find?_cons_of_pos _ (by simp [hid])] at hn ⊢
          exact ⟨n, hn, le_rfl⟩
        · unfold listUseCount at hn ⊢
          rw [List.find?_cons_of_neg _ (by simp [hid])] at hn ⊢
          exact ih r0 rest' hs cid n hn
    · rw [acquireScan, if_neg hc] at h
      simp at h
      obtain ⟨h1, h2⟩ := h
      subst h2
      by_cases hid : c.id = cid
      · unfold listUseCount at hn ⊢
        rw [List.find?_cons_of_pos _ (by simp [hid])] at hn
        rw [List.find?_cons_of_pos _ (by simp [hid])]
        simp at hn ⊢
        omega
      · unfold listUseCount at hn ⊢
        rw [List.find?_cons_of_neg _ (by simp [hid])] at hn
        rw [List.find?_cons_of_neg _ (by simp [hid])]
        exact ⟨n, hn, le_rfl⟩

/-- `release` changes neither ids nor use counts. -/
theorem release_useCount_eq (relid : String) (t : DateTime) :
    ∀ (l : List PooledConnection) cid,
      listUseCount (l.map (fun c =>
        if c.id = relid then { c with in_use := false, last_used := t } else c)) cid
        = listUseCount l cid := by
  intro l
  induction l with
  | nil => intro cid; rfl
  | cons c rest ih =>
    intro cid
    have hid' : (if c.id = relid then { c with in_use := false, last_used := t } else c).id
        = c.id := by split <;> rfl
    have huc : (if c.id = relid
          then { c with in_use := false, last_used := t } else c).use_count
        = c.use_count := by split <;> rfl
    by_cases hid : c.id = cid
    · unfold listUseCount
      rw [List.map_cons, List.find?_cons_of_pos _ (by rw [decide_eq_true_eq, hid']; exact hid),
        List.find?_cons_of_pos _ (by simp [hid])]
      simp [huc]
    · unfold listUseCount
      rw [List.map_cons,
        List.find?_cons_of_neg _ (by rw [Bool.not_eq_true, decide_eq_false_iff_not, hid']; exact hid),
        List.find?_cons_of_neg _ (by simp [hid])]
      exact ih cid

/-- Appending a new entry does not change the count found for an id already
present. -/
theorem listUseCount_append_of_found (x : PooledConnection) :
    ∀ (l : List PooledConnection) cid n, listUseCount l cid = some n →
      listUseCount (l ++ [x]) cid = some n := by
  intro l
  induction l with
  | nil => intro cid n h; simp [listUseCount] at h
  | cons c rest ih =>
    intro cid n h
    by_cases hid : c.id = cid
    · unfold listUseCount at h ⊢
      rw [List.find?_cons_of_pos _ (by simp [hid])] at h
      rw [List.cons_append, List.find?_cons_of_pos _ (by simp [hid])]
      exact h
    · unfold listUseCount at h ⊢
      rw [List.find?_cons_of_neg _ (by simp [hid])] at h
      rw [List.cons_append, List.find?_cons_of_neg _ (by simp [hid])]
      exact ih cid n h

/-- When the assigned key is fresh, dict assignment is an append. -/
theorem dictInsert_of_fresh (l : List PooledConnection) (x : PooledConnection)
    (hf : ∀ c ∈ l, c.id ≠ x.id) : dictInsert l x = l ++ [x] := by
  unfold dictInsert
  rw [if_neg]
  simp only [List.any_eq_true, decide_eq_true_eq, not_exists]
  intro d
  rintro ⟨hd, hde⟩
  exact hf d hd hde

/-- One pool operation with a fresh generated id never decreases any id's
`use_count`. -/
theorem applyOp_useCount_mono (p : ConnectionPool) (op : PoolOp) (hf : opFresh p op)
    (cid : String) (n : ℕ) (h : useCountOf p cid = some n) :
    ∃ m, useCountOf (applyOp p op) cid = some m ∧ n ≤ m := by
  cases op with
  | releaseOp rid t =>
    refine ⟨n, ?_, le_rfl⟩
    show listUseCount ((p.release rid t).connections) cid = some n
    show listUseCount (p.connections.map (fun c =>
      if c.id = rid then { c with in_use := false, last_used := t } else c)) cid = some n
    rw [release_useCount_eq rid t p.connections cid]
    exact h
  | acquireOp now fid =>
    cases ha : acquireAttempt p now fid with
    | none =>
      refine ⟨n, ?_, le_rfl⟩
      have hred : applyOp p (.acquireOp now fid) = p := by simp [applyOp, ha]
      rw [hred]
      exact h
    | some r =>
      have hred : applyOp p (.acquireOp now fid) = r.2 := by simp [applyOp, ha]
      rw [hred]
      unfold acquireAttempt at ha
      cases hs : acquireScan now p.connections with
      | some q =>
        obtain ⟨cc, l'⟩ := q
        rw [hs] at ha
        obtain rfl := Option.some.inj ha
        exact acquireScan_useCount_mono now p.connections cc l' hs cid n h
      | none =>
        rw [hs] at ha
        by_cases hlt : p.connections.length < p.max_connections
        · rw [if_pos hlt] at ha
          obtain rfl := Option.some.inj ha
          show ∃ m, listUseCount (dictInsert p.connections
            ⟨fid, true, now, now, 1⟩) cid = some m ∧ n ≤ m
          rw [dictInsert_of_fresh _ _ (fun c hc => hf c hc)]
          exact ⟨n, listUseCount_append_of_found _ p.connections cid n h, le_rfl⟩
        · rw [if_neg hlt] at ha
          exact absurd ha (by simp)

/-- Per-id `use_count` never decreases across any sequence of acquire/release
operations whose generated ids are fresh. -/
theorem applyOps_useCount_mono (ops : List PoolOp) :
    ∀ (p : ConnectionPool) cid n, opsFresh p ops → useCountOf p cid = some n →
      ∃ m, useCountOf (applyOps p ops) cid = some m ∧ n ≤ m := by
  induction ops with
  | nil => intro p cid n _ h; exact ⟨n, h, le_rfl⟩
  | cons op rest ih =>
    intro p cid n hfr h
    obtain ⟨hf1, hf2⟩ := hfr
    obtain ⟨m1, hm1, hle1⟩ := applyOp_useCount_mono p op hf1 cid n h
    obtain ⟨m2, hm2, hle2⟩ := ih (applyOp p op) cid m1 hf2 hm1
    exact ⟨m2, by simpa [applyOps] using hm2, le_trans hle1 hle2⟩

/-- When exactly one connection of the list is idle, the acquire scan leases
that connection. -/
theorem acquireScan_unique_idle (now : DateTime) (c : PooledConnection)
    (hc : c.in_use = false) :
    ∀ l : List PooledConnection, c ∈ l → (∀ d ∈ l, d ≠ c → d.in_use = true) →
      ∃ l', acquireScan now l =
        some ({ c with in_use := true, last_used := now, use_count := c.use_count + 1 },
          l') := by
  intro l
  induction l with
  | nil => intro hmem; simp at hmem
  | cons d rest ih =>
    intro hmem hall
    by_cases hdc : d = c
    · subst hdc
      rw [acquireScan, if_neg (by simp [hc])]
      exact ⟨_, rfl⟩
    · have hd : d.in_use = true := hall d (by simp) hdc
      have hcrest : c ∈ rest := by
        rcases List.mem_cons.mp hmem with h | h
        · exact absurd h.symm hdc
        · exact h
      obtain ⟨l', hl'⟩ := ih hcrest (fun e he hec => hall e (by simp [he]) hec)
      rw [acquireScan, if_pos hd, hl']
      exact ⟨d :: l', rfl⟩

/-- Claim C5 fails on the code as stated: in `twoConnPool` (idle `"a"` first
in insertion order, leased `"b"`), releasing `"b"` and re-acquiring with no
interleaving acquire returns the connection `"a"`, not `"b"` — the scan hands
out the first idle connection in iteration order, not the one just
released. -/
theorem release_reacquire_same_id_counterexample :
    (twoConnPool.release "b" ⟨1⟩).acquire 1 [⟨2, 2, "fresh"⟩] =
      some (.ok (⟨"a", true, ⟨0⟩, ⟨2⟩, 1⟩,
        ⟨1, 10, 300, 30, [⟨"a", true, ⟨0⟩, ⟨2⟩, 1⟩, ⟨"b", false, ⟨0⟩, ⟨1⟩, 1⟩], false⟩)) ∧
    ("a" : String) ≠ "b" :=
  ⟨rfl, by decide⟩

/-- Claim C5, amended: when the released connection is the only idle one
(every connection of the open pool was in use), releasing it and re-acquiring
before any other acquire returns a connection with the same `id` and
`use_count` incremented by exactly 1; and per-id `use_count` never decreases
under any sequence of acquire/release operations whose generated ids are
fresh. -/
theorem release_reacquire_same_id (p : ConnectionPool) (c : PooledConnection)
    (hnd : (p.connections.map (fun d => d.id)).Nodup)
    (hclosed : p.closed = false)
    (hmem : c ∈ p.connections)
    (hall : ∀ d ∈ p.connections, d.in_use = true) :
    (∀ (t1 : DateTime) (startT : ℚ) (step : PollStep) (rest : List PollStep),
      ∃ c' p', (p.release c.id t1).acquire startT (step :: rest) = some (.ok (c', p')) ∧
        c'.id = c.id ∧ c'.use_count = c.use_count + 1) ∧
    (∀ (q : ConnectionPool) (ops : List PoolOp) (cid : String) (n : ℕ),
      opsFresh q ops → useCountOf q cid = some n →
      ∃ m, useCountOf (applyOps q ops) cid = some m ∧ n ≤ m) := by
  constructor
  · intro t1 startT step rest
    have hcmem : ({ c with in_use := false, last_used := t1 } : PooledConnection)
        ∈ (p.release c.id t1).connections := by
      show _ ∈ p.connections.map _
      refine List.mem_map.mpr ⟨c, hmem, ?_⟩
      simp
    have hothers : ∀ d ∈ (p.release c.id t1).connections,
        d ≠ ({ c with in_use := false, last_used := t1 } : PooledConnection) →
        d.in_use = true := by
      intro d hd hne
      obtain ⟨d0, hd0, hd0e⟩ := List.mem_map.mp hd
      by_cases hsame : d0.id = c.id
      · obtain rfl := List.inj_on_of_nodup_map hnd hd0 hmem hsame
        rw [if_pos rfl] at hd0e
        exact absurd hd0e.symm hne
      · rw [if_neg hsame] at hd0e
        rw [← hd0e]
        exact hall d0 hd0
    obtain ⟨l', hscan⟩ := acquireScan_unique_idle ⟨step.attempt_time⟩
      { c with in_use := false, last_used := t1 } rfl
      (p.release c.id t1).connections hcmem hothers
    refine ⟨{ c with in_use := true, last_used := ⟨step.attempt_time⟩, use_count := c.use_count + 1 }, { (p.release c.id t1) with connections := l' }, ?_, rfl, rfl⟩
    rw [ConnectionPool.acquire,
      if_neg (show ¬ ((p.release c.id t1).closed = true) by
        show ¬ (p.closed = true)
        simp [hclosed]),
      acquireLoop]
    unfold acquireAttempt
    rw [hscan]
  · intro q ops cid n hf h
    exact applyOps_useCount_mono ops q cid n hf h

/-- Concrete instance of `release_reacquire_same_id` on `busyPool`: releasing
its only (leased) connection `"a"` and re-acquiring returns `"a"` again with
`use_count` 2. -/
theorem release_reacquire_same_id_witness :
    ∃ c' p', (busyPool.release "a" ⟨1⟩).acquire 1 [⟨2, 2, "f"⟩] = some (.ok (c', p')) ∧
      c'.id = "a" ∧ c'.use_count = 1 + 1 :=
  (release_reacquire_same_id busyPool ⟨"a", true, ⟨0⟩, ⟨0⟩, 1⟩
    (by decide) rfl (by decide) (by decide)).1 ⟨1⟩ 1 ⟨2, 2, "f"⟩ []

/-- Claim C9 fails on the code: `get_detailed_stats` computes
`now - c.created_at` with `now = time.time()` (a float) and `created_at` a
`datetime`, which raises `TypeError` as soon as the pool holds a connection,
instead of returning the snapshot.  (Nor is the method reachable at all: its
`Dict[str, Any]` annotation names `Any`, which the module never imports, so
importing `connection_pool` raises `NameError`.) -/
theorem get_detailed_stats_type_error :
    getDetailedStats oneConnPool 100 =
      .error (.typeErr "unsupported operand type(s) for -: float and datetime.datetime") :=
  rfl

end WorkerSQL
